import Mathlib

/-!
Verification development for the inventory-and-report core of
`viperview.py` (ExoFi-Labs/ViperView).

The Python core is shallowly embedded:

* `PackageRecord` models the four-key dict built in `get_package_sizes`.
* `PkgDist` models one `pkg_resources.working_set` entry
  (`dist.location`, `dist.project_name`, `dist.version`).
* `ScanEnv` models the ambient filesystem and per-package failure
  behaviour: `pathExists` models `Path.exists()`, `fileSizes` models the
  `os.walk` + `os.path.isfile` + `os.path.getsize` pipeline (the byte
  sizes, in walk order, of the regular files under a directory), and
  `errorFor` models whether the `try` body for a given project name
  raises an exception (with its message).
* Machine integers are modelled as `Int`/`Nat`; byte sizes fit well
  inside arbitrary precision so no wrap-around modelling is needed
  (Python ints are unbounded anyway).
* The freshly drawn 128 random bits consumed by `uuid.uuid4()` are an
  explicit parameter, as are the `datetime.now()` / `datetime.utcnow()`
  timestamp strings.
-/

/-- Models the dict appended in `get_package_sizes`
(`viperview.py` lines 26-31): exactly the four keys
`name`, `version`, `size_bytes`, `location`. -/
structure PackageRecord where
  name : String
  version : String
  size_bytes : Int
  location : String
deriving DecidableEq, Repr

/-- One entry of `pkg_resources.working_set`: the fields of `dist` that
`get_package_sizes` reads. -/
structure PkgDist where
  location : String
  project_name : String
  version : String
deriving DecidableEq, Repr

/-- The ambient environment read by `get_package_sizes`: filesystem
queries and the per-package exception behaviour of the `try` body. -/
structure ScanEnv where
  pathExists : String → Bool
  fileSizes : String → List Int
  errorFor : String → Option String

/-- The running total of `viperview.py` lines 20-25: `size = 0` then
`size += os.path.getsize(fp)` for each regular file found by the walk. -/
def walkSize (sizes : List Int) : Int :=
  sizes.foldl (fun acc s => acc + s) 0

/-- `dist.project_name.replace("-", "_")`: with a one-character pattern,
Python's `str.replace` is exactly a character-by-character substitution. -/
def replaceDashUnderscore (s : String) : String :=
  String.mk (s.data.map (fun c => if c = '-' then '_' else c))

/-- `dist.project_name.lower()` on ASCII project names: Python's
`str.lower` maps each character to its lowercase form. -/
def lowerAscii (s : String) : String :=
  String.mk (s.data.map Char.toLower)

/-- One iteration of the `for dist in pkg_resources.working_set` loop
(`viperview.py` lines 15-33): either the `try` body raises and the
warning line is printed (to standard output: the `print` call has no
`file=` argument), or the two candidate directories are tried in order
and a record is produced when one of them exists.  Returns the optional
record together with the list of lines printed to standard output. -/
def processDist (env : ScanEnv) (dist : PkgDist) : Option PackageRecord × List String :=
  match env.errorFor dist.project_name with
  | some msg => (none, ["[!] Error reading " ++ dist.project_name ++ ": " ++ msg])
  | none =>
    let location0 := dist.location ++ "/" ++ replaceDashUnderscore dist.project_name
    let location :=
      if env.pathExists location0 then location0
      else dist.location ++ "/" ++ lowerAscii dist.project_name
    if env.pathExists location then
      (some { name := dist.project_name, version := dist.version,
              size_bytes := walkSize (env.fileSizes location),
              location := location }, [])
    else
      (none, [])

/-- Result of a scan: the `packages` list plus everything printed on the
two streams while scanning. -/
structure ScanResult where
  records : List PackageRecord
  stdoutLines : List String
  stderrLines : List String
deriving Repr

/-- `get_package_sizes` (`viperview.py` lines 12-34): the loop appends
records and warning lines in registry enumeration order; nothing is ever
written to standard error during the scan. -/
def get_package_sizes (env : ScanEnv) : List PkgDist → ScanResult
  | [] => { records := [], stdoutLines := [], stderrLines := [] }
  | dist :: rest =>
    let step := processDist env dist
    let tail := get_package_sizes env rest
    { records := step.1.toList ++ tail.records,
      stdoutLines := step.2 ++ tail.stdoutLines,
      stderrLines := tail.stderrLines }

/-- The binary-unit suffix table of `humanize.naturalsize(..., binary=True)`. -/
def binarySuffixes : List String := ["KiB", "MiB", "GiB", "TiB", "PiB", "EiB", "ZiB", "YiB"]

/-- Rounds `num / den` to tenths, half to even — the rounding used by
`"%.1f"` formatting, taken on the exact rational value. -/
def roundHalfEvenTenths (num den : Nat) : Nat :=
  let a := num * 10
  let q := a / den
  let r := a % den
  if den < 2 * r then q + 1
  else if 2 * r < den then q
  else if q % 2 = 0 then q else q + 1

/-- `"%.1f" % (num / den)` for a non-negative exact rational. -/
def natOneDecimal (num den : Nat) : String :=
  let t := roundHalfEvenTenths num den
  toString (t / 10) ++ "." ++ toString (t % 10)

/-- Index of the first suffix whose unit bound `1024 ^ (i + 2) * den`
exceeds `a` — the `for i, s in enumerate(suffix)` search of
`humanize.naturalsize`, on the rational `a / den`. -/
def nsPickQ (a den : Nat) : Nat :=
  if a < 1024 ^ 2 * den then 0
  else if a < 1024 ^ 3 * den then 1
  else if a < 1024 ^ 4 * den then 2
  else if a < 1024 ^ 5 * den then 3
  else if a < 1024 ^ 6 * den then 4
  else if a < 1024 ^ 7 * den then 5
  else if a < 1024 ^ 8 * den then 6
  else 7

/-- `humanize.naturalsize(total / count, binary=True)` on the exact
rational `total / count` (the Python call receives a float; float
division and `"%.1f"` rounding are modelled by exact rational
arithmetic with round-half-to-even). -/
def naturalsizeBinaryAvg (total : Int) (count : Nat) : String :=
  let a := total.natAbs
  let sign := if total < 0 then "-" else ""
  if a = count then sign ++ "1 Byte"
  else if a < 1024 * count then sign ++ toString (a / count) ++ " Bytes"
  else
    let i := nsPickQ a count
    sign ++ natOneDecimal a (1024 ^ (i + 1) * count) ++ " " ++ binarySuffixes.getD i "YiB"

/-- `humanize.naturalsize(v, binary=True)` for an integer byte count. -/
def naturalsizeBinary (v : Int) : String := naturalsizeBinaryAvg v 1

/-- The `"-" * 80` separator rule of `format_text_output`. -/
def dashes80 : String := String.mk (List.replicate 80 '-')

/-- The header block built in `format_text_output`
(`viperview.py` lines 77-80). -/
def textHeader (now : String) : String :=
  "# Python Packages SBOM\n" ++ "# Generated: " ++ now ++ "\n" ++
  "# Format: name | version | size | location\n" ++ dashes80 ++ "\n"

/-- One body line of the text report (`viperview.py` line 84). -/
def textLine (pkg : PackageRecord) : String :=
  pkg.name ++ " | " ++ pkg.version ++ " | " ++ naturalsizeBinary pkg.size_bytes ++
  " | " ++ pkg.location ++ "\n"

/-- Python string comparison: lexicographic, code point by code point.
`lexLE x y` holds when the sequence `x` is less than or equal to `y`. -/
def lexLE : List Char → List Char → Bool
  | [], _ => true
  | _ :: _, [] => false
  | a :: as, b :: bs =>
    if a.toNat < b.toNat then true
    else if b.toNat < a.toNat then false
    else lexLE as bs

/-- The sort key relation of `sorted(packages, key=lambda x: x["name"].lower())`:
compare records by their case-folded names, Python string order. -/
def nameKeyLE (a b : PackageRecord) : Prop :=
  lexLE (lowerAscii a.name).data (lowerAscii b.name).data = true

instance : DecidableRel nameKeyLE :=
  fun a b =>
    inferInstanceAs (Decidable (lexLE (lowerAscii a.name).data (lowerAscii b.name).data = true))

/-- `format_text_output` (`viperview.py` lines 76-86): header block, then
one appended line per record, records visited in stable-sorted order by
case-folded name (Python `sorted` is stable; a stable sort is modelled by
insertion sort, which is also stable). -/
def format_text_output (now : String) (packages : List PackageRecord) : String :=
  (List.insertionSort nameKeyLE packages).foldl
    (fun output pkg => output ++ textLine pkg) (textHeader now)

/-- The `metadata` object of the JSON format (`viperview.py` lines 97-102). -/
structure JsonMetadata where
  generated_at : String
  total_packages : Nat
  total_size_bytes : Int
  total_size_human : String
deriving DecidableEq, Repr

/-- The JSON-format document (`viperview.py` lines 96-104). -/
structure JsonReport where
  metadata : JsonMetadata
  packages : List PackageRecord
deriving DecidableEq, Repr

/-- A JSON scalar as it appears in a serialized package object. -/
inductive JValue where
  | jstr (v : String)
  | jint (v : Int)
deriving DecidableEq, Repr

/-- The key/value view of one serialized package dict: the order and
content of the four keys set at `viperview.py` lines 26-31, which is
what `json.dump` writes for each element of the `packages` array. -/
def recordFields (r : PackageRecord) : List (String × JValue) :=
  [("name", JValue.jstr r.name), ("version", JValue.jstr r.version),
   ("size_bytes", JValue.jint r.size_bytes), ("location", JValue.jstr r.location)]

/-- Parses one four-field package object back into a record; any other
shape is rejected. -/
def parseRecordFields : List (String × JValue) → Option PackageRecord
  | [("name", JValue.jstr n), ("version", JValue.jstr v),
     ("size_bytes", JValue.jint s), ("location", JValue.jstr l)] =>
    some { name := n, version := v, size_bytes := s, location := l }
  | _ => none

/-- One entry of a CycloneDX component `properties` array. -/
structure CdxProperty where
  name : String
  value : String
deriving DecidableEq, Repr

/-- One CycloneDX `components` entry (`viperview.py` lines 56-71). -/
structure CdxComponent where
  type : String
  name : String
  version : String
  purl : String
  properties : List CdxProperty
deriving DecidableEq, Repr

/-- One CycloneDX `metadata.tools` entry (`viperview.py` lines 44-50). -/
structure CdxTool where
  vendor : String
  name : String
  version : String
deriving DecidableEq, Repr

/-- The CycloneDX `metadata` object. -/
structure CdxMetadata where
  timestamp : String
  tools : List CdxTool
deriving DecidableEq, Repr

/-- The CycloneDX document (`viperview.py` lines 37-53). -/
structure CycloneDxSbom where
  bomFormat : String
  specVersion : String
  serialNumber : String
  version : Nat
  metadata : CdxMetadata
  components : List CdxComponent
deriving DecidableEq, Repr

/-- The hexadecimal digit characters used by Python `"%x"` formatting
(lowercase). -/
def hexDigitChar (k : Nat) : Char :=
  if k < 10 then Char.ofNat (48 + k) else Char.ofNat (87 + k)

/-- Fixed-width lowercase hexadecimal rendering (most significant digit
first) of `n % 16 ^ w` — Python `"%0*x"` formatting. -/
def toHexChars : Nat → Nat → List Char
  | 0, _ => []
  | w + 1, n => toHexChars w (n / 16) ++ [hexDigitChar (n % 16)]

/-- Numeric value of a lowercase hexadecimal digit character. -/
def fromHexVal (c : Char) : Nat :=
  if c.toNat ≤ 57 then c.toNat - 48 else c.toNat - 87

/-- Value of a big-endian string of hexadecimal digit characters. -/
def fromHexChars : List Char → Nat
  | [] => 0
  | c :: cs => fromHexVal c * 16 ^ cs.length + fromHexChars cs

/-- `str(uuid.UUID(int=n))`: `"%032x" % n` split into hyphen-separated
groups of 8, 4, 4, 4 and 12 hexadecimal digits. -/
def uuidStringOf (n : Nat) : String :=
  String.mk (toHexChars 8 (n / 16 ^ 24) ++
    '-' :: toHexChars 4 (n / 16 ^ 20 % 16 ^ 4) ++
    '-' :: toHexChars 4 (n / 16 ^ 16 % 16 ^ 4) ++
    '-' :: toHexChars 4 (n / 16 ^ 12 % 16 ^ 4) ++
    '-' :: toHexChars 12 (n % 16 ^ 12))

/-- `uuid.uuid4()` as a function of the 16 fresh random bytes it draws:
CPython clears bits 62-63 and sets bit 63 (RFC 4122 variant), then
clears bits 76-79 and sets bit 78 (version 4). -/
def uuid4OfRandom (r : Nat) : Nat :=
  let i0 := r % 2 ^ 128
  let i1 := i0 - i0 / 2 ^ 62 % 4 * 2 ^ 62 + 2 ^ 63
  i1 - i1 / 2 ^ 76 % 16 * 2 ^ 76 + 2 ^ 78

/-- `f"urn:uuid:{uuid.uuid4()}"` (`viperview.py` line 40) as a function
of the fresh random draw. -/
def cdxSerialNumber (r : Nat) : String :=
  "urn:uuid:" ++ uuidStringOf (uuid4OfRandom r)

/-- `generate_cyclonedx_sbom` (`viperview.py` lines 36-74), with the
random draw of `uuid.uuid4()` and the `datetime.utcnow()` timestamp as
explicit parameters.  The `components` list is built by the source's
append loop. -/
def generate_cyclonedx_sbom (r : Nat) (utcnow : String)
    (packages : List PackageRecord) : CycloneDxSbom :=
  let sbom : CycloneDxSbom :=
    { bomFormat := "CycloneDX",
      specVersion := "1.4",
      serialNumber := cdxSerialNumber r,
      version := 1,
      metadata := { timestamp := utcnow,
                    tools := [{ vendor := "pysleuth",
                                name := "pysleuth Package Analyzer",
                                version := "1.0.0" }] },
      components := [] }
  { sbom with components :=
      packages.foldl (fun comps pkg =>
        comps ++ [{ type := "library",
                    name := pkg.name,
                    version := pkg.version,
                    purl := "pkg:pypi/" ++ pkg.name ++ "@" ++ pkg.version,
                    properties := [{ name := "size", value := toString pkg.size_bytes },
                                   { name := "location", value := pkg.location }] }]) [] }

/-- The artifact selected by `analyze_packages`: text string, JSON
document, or CycloneDX document. -/
inductive RenderOutput where
  | text (s : String)
  | json (doc : JsonReport)
  | cyclonedx (doc : CycloneDxSbom)
deriving DecidableEq, Repr

/-- Observable behaviour of one `analyze_packages` call: the artifact,
what was printed on each stream, and the uncaught exception if one was
raised. -/
structure AnalyzeResult where
  output : RenderOutput
  stdoutLines : List String
  stderrLines : List String
  raised : Option String
deriving Repr

/-- `total_size = sum(pkg["size_bytes"] for pkg in packages)`
(`viperview.py` line 92). -/
def sumSizes (packages : List PackageRecord) : Int :=
  packages.foldl (fun acc pkg => acc + pkg.size_bytes) 0

/-- `analyze_packages` (`viperview.py` lines 88-127) with
`output_file=None`: scan, pick the artifact by format (any format other
than `json` and `cyclonedx` falls to the text branch), then print the
summary to standard error.  The artifact is kept structured in `output`
(the source serializes it to standard output).  The summary prints its
first three lines and then evaluates `total_size/total_packages`, which
raises an uncaught `ZeroDivisionError` when no package was recorded;
`raised` records that exception. -/
def analyze_packages (env : ScanEnv) (dists : List PkgDist) (output_format : String)
    (now utcnow : String) (r : Nat) : AnalyzeResult :=
  let scan := get_package_sizes env dists
  let packages := scan.records
  let total_size := sumSizes packages
  let total_packages := packages.length
  let output : RenderOutput :=
    if output_format = "json" then
      .json { metadata := { generated_at := now,
                            total_packages := total_packages,
                            total_size_bytes := total_size,
                            total_size_human := naturalsizeBinary total_size },
              packages := packages }
    else if output_format = "cyclonedx" then
      .cyclonedx (generate_cyclonedx_sbom r utcnow packages)
    else
      .text (format_text_output now packages)
  let summaryHead := ["\n📦 Summary:",
                      "Total packages: " ++ toString total_packages,
                      "Total size: " ++ naturalsizeBinary total_size]
  if total_packages = 0 then
    { output := output, stdoutLines := scan.stdoutLines,
      stderrLines := summaryHead,
      raised := some "ZeroDivisionError: division by zero" }
  else
    { output := output, stdoutLines := scan.stdoutLines,
      stderrLines := summaryHead ++
        ["Average size: " ++ naturalsizeBinaryAvg total_size total_packages],
      raised := none }

/-! ### Derived definitions and test fixtures -/

/-- Concatenation of a list of strings, in order. -/
def joinAll : List String → String
  | [] => ""
  | s :: rest => s ++ joinAll rest

/-- Lowercase-hexadecimal-digit test used to state UUID-urn syntax. -/
def isHexChar (c : Char) : Bool :=
  (decide ('0' ≤ c) && decide (c ≤ '9')) || (decide ('a' ≤ c) && decide (c ≤ 'f'))

/-- Syntactic validity of a UUID-urn string: the literal `urn:uuid:`
prefix followed by five hyphen-separated groups of 8, 4, 4, 4 and 12
lowercase hexadecimal digits. -/
def IsUuidUrn (s : String) : Prop :=
  ∃ g1 g2 g3 g4 g5 : List Char,
    s.data = "urn:uuid:".data ++ g1 ++
      '-' :: g2 ++ '-' :: g3 ++ '-' :: g4 ++ '-' :: g5 ∧
    g1.length = 8 ∧ g2.length = 4 ∧ g3.length = 4 ∧ g4.length = 4 ∧ g5.length = 12 ∧
    (∀ c ∈ g1, isHexChar c = true) ∧ (∀ c ∈ g2, isHexChar c = true) ∧
    (∀ c ∈ g3, isHexChar c = true) ∧ (∀ c ∈ g4, isHexChar c = true) ∧
    (∀ c ∈ g5, isHexChar c = true)

/-- Recovers the 128-bit integer from a serial-number string: skip the
9-character prefix, drop the hyphens, read the hexadecimal digits. -/
def decodeSerial (s : String) : Nat :=
  fromHexChars ((s.data.drop 9).filter (fun c => c != '-'))

/-- Whether one of the two candidate directories tried by
`get_package_sizes` for `d` exists. -/
def resolvable (env : ScanEnv) (d : PkgDist) : Bool :=
  env.pathExists (d.location ++ "/" ++ replaceDashUnderscore d.project_name) ||
  env.pathExists (d.location ++ "/" ++ lowerAscii d.project_name)

/-- Fixture: every path exists, every directory holds two regular files
of 5 and 7 bytes, nothing raises. -/
def envAllGood : ScanEnv :=
  { pathExists := fun _ => true, fileSizes := fun _ => [5, 7], errorFor := fun _ => none }

/-- Fixture: processing the package named `bad` raises with message
`boom`; every path exists; directories are empty. -/
def envOneError : ScanEnv :=
  { pathExists := fun _ => true, fileSizes := fun _ => [],
    errorFor := fun s => if s = "bad" then some "boom" else none }

/-- Fixture: only the directory `/sp/p10` is missing; nothing raises. -/
def envMissingTen : ScanEnv :=
  { pathExists := fun s => s != "/sp/p10", fileSizes := fun _ => [],
    errorFor := fun _ => none }

/-- Fixture: only the all-lowercase directory `/sp/abc` exists; its walk
finds one 3-byte regular file; nothing raises. -/
def envLowerOnly : ScanEnv :=
  { pathExists := fun s => s == "/sp/abc", fileSizes := fun _ => [3],
    errorFor := fun _ => none }

/-- Fixture: ten registry entries under `/sp`, named `p1` … `p10`. -/
def tenDists : List PkgDist :=
  [⟨"/sp", "p1", "1"⟩, ⟨"/sp", "p2", "1"⟩, ⟨"/sp", "p3", "1"⟩, ⟨"/sp", "p4", "1"⟩,
   ⟨"/sp", "p5", "1"⟩, ⟨"/sp", "p6", "1"⟩, ⟨"/sp", "p7", "1"⟩, ⟨"/sp", "p8", "1"⟩,
   ⟨"/sp", "p9", "1"⟩, ⟨"/sp", "p10", "1"⟩]

/-! ### Helper lemmas -/

theorem foldl_add_eq_sum (l : List Int) (a : Int) :
    l.foldl (fun acc s => acc + s) a = a + l.sum := by
  induction l generalizing a with
  | nil => simp
  | cons x t ih => simp [List.foldl, ih, add_assoc]

theorem walkSize_eq_sum (sizes : List Int) : walkSize sizes = sizes.sum := by
  simpa [walkSize] using foldl_add_eq_sum sizes 0

theorem walkSize_nonneg (sizes : List Int) (h : ∀ s ∈ sizes, 0 ≤ s) :
    0 ≤ walkSize sizes := by
  rw [walkSize_eq_sum]
  exact List.sum_nonneg h

theorem sumSizes_eq_sum (l : List PackageRecord) :
    sumSizes l = (l.map fun p => p.size_bytes).sum := by
  have aux : ∀ (l : List PackageRecord) (a : Int),
      l.foldl (fun acc p => acc + p.size_bytes) a = a + (l.map fun p => p.size_bytes).sum := by
    intro l
    induction l with
    | nil => intro a; simp
    | cons x t ih => intro a; simp [List.foldl, ih, add_assoc]
  simpa [sumSizes] using aux l 0

theorem scan_records_eq (env : ScanEnv) (dists : List PkgDist) :
    (get_package_sizes env dists).records =
      dists.filterMap (fun d => (processDist env d).1) := by
  induction dists with
  | nil => rfl
  | cons d rest ih =>
    rw [get_package_sizes, List.filterMap_cons]
    cases h : (processDist env d).1 <;> simp [h, ih]

theorem scan_stderr_nil (env : ScanEnv) (dists : List PkgDist) :
    (get_package_sizes env dists).stderrLines = [] := by
  induction dists with
  | nil => rfl
  | cons d rest ih => rw [get_package_sizes]; exact ih

theorem processDist_of_error (env : ScanEnv) (d : PkgDist) (msg : String)
    (he : env.errorFor d.project_name = some msg) :
    processDist env d = (none, ["[!] Error reading " ++ d.project_name ++ ": " ++ msg]) := by
  simp [processDist, he]

theorem processDist_snd_of_no_error (env : ScanEnv) (d : PkgDist)
    (he : env.errorFor d.project_name = none) :
    (processDist env d).2 = [] := by
  rw [processDist, he]
  dsimp only
  split <;> first
  | rfl
  | (split <;> rfl)

theorem scan_stdout_nil (env : ScanEnv) (dists : List PkgDist)
    (h : ∀ d ∈ dists, env.errorFor d.project_name = none) :
    (get_package_sizes env dists).stdoutLines = [] := by
  induction dists with
  | nil => rfl
  | cons d rest ih =>
    rw [get_package_sizes]
    have h1 := processDist_snd_of_no_error env d (h d (List.mem_cons_self d rest))
    have h2 := ih fun x hx => h x (List.mem_cons_of_mem d hx)
    simp [h1, h2]

theorem scan_stdout_mem (env : ScanEnv) (dists : List PkgDist) (d : PkgDist) (msg : String)
    (hd : d ∈ dists) (he : env.errorFor d.project_name = some msg) :
    ("[!] Error reading " ++ d.project_name ++ ": " ++ msg) ∈
      (get_package_sizes env dists).stdoutLines := by
  induction dists with
  | nil => cases hd
  | cons x rest ih =>
    rw [get_package_sizes]
    rcases List.mem_cons.mp hd with h | h
    · subst h
      rw [processDist_of_error env d msg he]
      simp
    · simp [ih h]

theorem foldl_append_singletons {α β : Type} (f : α → β) (l : List α) (acc : List β) :
    l.foldl (fun cs x => cs ++ [f x]) acc = acc ++ l.map f := by
  induction l generalizing acc with
  | nil => simp
  | cons x t ih => simp [List.foldl, ih]

theorem foldl_append_joinAll (g : PackageRecord → String) (l : List PackageRecord) (acc : String) :
    l.foldl (fun out p => out ++ g p) acc = acc ++ joinAll (l.map g) := by
  induction l generalizing acc with
  | nil => simp [joinAll]
  | cons x t ih => simp [List.foldl, ih, joinAll, String.append_assoc]

theorem format_text_output_eq (now : String) (packages : List PackageRecord) :
    format_text_output now packages =
      textHeader now ++ joinAll ((List.insertionSort nameKeyLE packages).map textLine) := by
  rw [format_text_output]
  exact foldl_append_joinAll textLine _ _

theorem char_eq_of_toNat_eq (a b : Char) (h : a.toNat = b.toNat) : a = b :=
  Char.ext (UInt32.ext h)

theorem string_eq_of_data_eq (s t : String) (h : s.data = t.data) : s = t := by
  cases s
  cases t
  simp_all

theorem lexLE_total : ∀ (x y : List Char), lexLE x y = true ∨ lexLE y x = true := by
  intro x
  induction x with
  | nil => intro y; left; rfl
  | cons a as ih =>
    intro y
    cases y with
    | nil => right; rfl
    | cons b bs =>
      rw [lexLE, lexLE]
      by_cases hab : a.toNat < b.toNat
      · left; simp [hab]
      · by_cases hba : b.toNat < a.toNat
        · right; simp [hba]
        · rcases ih bs with h | h
          · left; simp [hab, hba, h]
          · right; simp [hab, hba, h]

theorem lexLE_trans :
    ∀ (x y z : List Char), lexLE x y = true → lexLE y z = true → lexLE x z = true := by
  intro x
  induction x with
  | nil => intro y z h1 h2; rfl
  | cons a as ih =>
    intro y z h1 h2
    cases y with
    | nil => rw [lexLE] at h1; cases h1
    | cons b bs =>
      cases z with
      | nil => rw [lexLE] at h2; cases h2
      | cons c cs =>
        rw [lexLE] at h1 h2 ⊢
        by_cases hab : a.toNat < b.toNat
        · by_cases hbc : b.toNat < c.toNat
          · simp [Nat.lt_trans hab hbc]
          · by_cases hcb : c.toNat < b.toNat
            · simp [hbc, hcb] at h2
            · have hac : a.toNat < c.toNat := by omega
              simp [hac]
        · by_cases hba : b.toNat < a.toNat
          · simp [hab, hba] at h1
          · by_cases hbc : b.toNat < c.toNat
            · have hac : a.toNat < c.toNat := by omega
              simp [hac]
            · by_cases hcb : c.toNat < b.toNat
              · simp [hbc, hcb] at h2
              · have hacn : ¬ a.toNat < c.toNat := by omega
                have hcan : ¬ c.toNat < a.toNat := by omega
                simp [hab, hba] at h1
                simp [hbc, hcb] at h2
                simp [hacn, hcan]
                exact ih bs cs h1 h2

theorem lexLE_antisymm :
    ∀ (x y : List Char), lexLE x y = true → lexLE y x = true → x = y := by
  intro x
  induction x with
  | nil =>
    intro y h1 h2
    cases y with
    | nil => rfl
    | cons b bs => rw [lexLE] at h2; cases h2
  | cons a as ih =>
    intro y h1 h2
    cases y with
    | nil => rw [lexLE] at h1; cases h1
    | cons b bs =>
      rw [lexLE] at h1 h2
      by_cases hab : a.toNat < b.toNat
      · have hba : ¬ b.toNat < a.toNat := by omega
        simp [hab, hba] at h2
      · by_cases hba : b.toNat < a.toNat
        · simp [hab, hba] at h1
        · have hc : a = b := char_eq_of_toNat_eq a b (by omega)
          simp [hab, hba] at h1 h2
          rw [hc, ih bs h1 h2]

theorem nameKeyLE_isTotal : IsTotal PackageRecord nameKeyLE :=
  ⟨fun a b => lexLE_total (lowerAscii a.name).data (lowerAscii b.name).data⟩

theorem nameKeyLE_isTrans : IsTrans PackageRecord nameKeyLE :=
  ⟨fun _ _ _ h1 h2 => lexLE_trans _ _ _ h1 h2⟩

theorem nameKeyLE_antisymm (a b : PackageRecord)
    (h1 : nameKeyLE a b) (h2 : nameKeyLE b a) : lowerAscii a.name = lowerAscii b.name :=
  string_eq_of_data_eq _ _ (lexLE_antisymm _ _ h1 h2)

theorem sorted_perm_eq_of_nodup_keys :
    ∀ {l₁ l₂ : List PackageRecord}, l₁.Perm l₂ → l₁.Sorted nameKeyLE →
      l₂.Sorted nameKeyLE → (l₁.map fun p => lowerAscii p.name).Nodup → l₁ = l₂ := by
  intro l₁
  induction l₁ with
  | nil =>
    intro l₂ p _ _ _
    exact (List.Perm.eq_nil p.symm).symm
  | cons a t ih =>
    intro l₂ p s₁ s₂ nd
    cases l₂ with
    | nil => exact absurd p.eq_nil (by simp)
    | cons b t₂ =>
      have hbmem : b ∈ a :: t := (p.mem_iff.mpr (List.mem_cons_self b t₂))
      have hamem : a ∈ b :: t₂ := (p.mem_iff.mp (List.mem_cons_self a t))
      have hkey : lowerAscii a.name = lowerAscii b.name := by
        rcases List.mem_cons.mp hbmem with h | h
        · rw [h]
        · rcases List.mem_cons.mp hamem with h2 | h2
          · rw [h2]
          · exact nameKeyLE_antisymm a b ((List.sorted_cons.mp s₁).1 b h)
              ((List.sorted_cons.mp s₂).1 a h2)
      have ndc : lowerAscii a.name ∉ t.map (fun p => lowerAscii p.name) ∧
          (t.map fun p => lowerAscii p.name).Nodup := by
        rw [List.map_cons] at nd
        exact List.nodup_cons.mp nd
      have hb : b = a := by
        rcases List.mem_cons.mp hbmem with h | h
        · exact h
        · exfalso
          have hmem : lowerAscii b.name ∈ t.map (fun p => lowerAscii p.name) :=
            List.mem_map_of_mem _ h
          rw [← hkey] at hmem
          exact ndc.1 hmem
      subst hb
      have pt := p.cons_inv
      have := ih pt (List.sorted_cons.mp s₁).2 (List.sorted_cons.mp s₂).2 ndc.2
      rw [this]

theorem toHexChars_length (w : Nat) : ∀ n, (toHexChars w n).length = w := by
  induction w with
  | zero => intro n; rfl
  | succ w ih => intro n; simp [toHexChars, ih]

theorem hexDigitChar_isHex (k : Nat) (h : k < 16) : isHexChar (hexDigitChar k) = true := by
  interval_cases k <;> decide

theorem toHexChars_all_hex (w : Nat) : ∀ n, ∀ c ∈ toHexChars w n, isHexChar c = true := by
  induction w with
  | zero => intro n c hc; cases hc
  | succ w ih =>
    intro n c hc
    rw [toHexChars] at hc
    rcases List.mem_append.mp hc with h | h
    · exact ih _ c h
    · rw [List.mem_singleton] at h
      subst h
      exact hexDigitChar_isHex _ (Nat.mod_lt _ (by norm_num))

theorem fromHexVal_hexDigitChar (k : Nat) (h : k < 16) : fromHexVal (hexDigitChar k) = k := by
  interval_cases k <;> decide

theorem fromHexChars_append (l₁ l₂ : List Char) :
    fromHexChars (l₁ ++ l₂) = fromHexChars l₁ * 16 ^ l₂.length + fromHexChars l₂ := by
  induction l₁ with
  | nil => simp [fromHexChars]
  | cons c cs ih =>
    simp only [List.cons_append, fromHexChars, List.append_eq, ih, List.length_append, pow_add]
    ring

theorem fromHex_toHex (w : Nat) : ∀ n, fromHexChars (toHexChars w n) = n % 16 ^ w := by
  induction w with
  | zero => intro n; simp [toHexChars, fromHexChars, Nat.mod_one]
  | succ w ih =>
    intro n
    rw [toHexChars, fromHexChars_append]
    have hlen : (List.length [hexDigitChar (n % 16)]) = 1 := rfl
    have hval : fromHexChars [hexDigitChar (n % 16)] = n % 16 := by
      simp [fromHexChars, fromHexVal_hexDigitChar (n % 16) (Nat.mod_lt _ (by norm_num))]
    rw [hlen, hval, ih, pow_one]
    rw [pow_succ, mul_comm (16 ^ w) 16, Nat.mod_mul]
    ring

theorem uuid4OfRandom_lt (r : Nat) : uuid4OfRandom r < 2 ^ 128 := by
  unfold uuid4OfRandom
  norm_num
  omega

theorem isUuidUrn_urn_append (n : Nat) : IsUuidUrn ("urn:uuid:" ++ uuidStringOf n) := by
  refine ⟨toHexChars 8 (n / 16 ^ 24), toHexChars 4 (n / 16 ^ 20 % 16 ^ 4),
    toHexChars 4 (n / 16 ^ 16 % 16 ^ 4), toHexChars 4 (n / 16 ^ 12 % 16 ^ 4),
    toHexChars 12 (n % 16 ^ 12), rfl,
    toHexChars_length 8 _, toHexChars_length 4 _, toHexChars_length 4 _,
    toHexChars_length 4 _, toHexChars_length 12 _,
    toHexChars_all_hex 8 _, toHexChars_all_hex 4 _, toHexChars_all_hex 4 _,
    toHexChars_all_hex 4 _, toHexChars_all_hex 12 _⟩

theorem filter_ne_dash_of_hex (l : List Char) (h : ∀ c ∈ l, isHexChar c = true) :
    l.filter (fun c => c != '-') = l := by
  apply List.filter_eq_self.mpr
  intro c hc
  have hx := h c hc
  have hne : c ≠ '-' := by
    intro he
    rw [he] at hx
    exact absurd hx (by decide)
  exact bne_iff_ne.mpr hne

theorem decodeSerial_uuid (n : Nat) (hn : n < 2 ^ 128) :
    decodeSerial ("urn:uuid:" ++ uuidStringOf n) = n := by
  rw [decodeSerial]
  have hdata : ("urn:uuid:" ++ uuidStringOf n).data =
      "urn:uuid:".data ++ (toHexChars 8 (n / 16 ^ 24) ++
        '-' :: toHexChars 4 (n / 16 ^ 20 % 16 ^ 4) ++
        '-' :: toHexChars 4 (n / 16 ^ 16 % 16 ^ 4) ++
        '-' :: toHexChars 4 (n / 16 ^ 12 % 16 ^ 4) ++
        '-' :: toHexChars 12 (n % 16 ^ 12)) := rfl
  rw [hdata]
  have h9 : ("urn:uuid:".data).length = 9 := rfl
  rw [← h9, List.drop_left]
  rw [List.filter_append, List.filter_cons_of_neg (by decide),
    List.filter_append, List.filter_cons_of_neg (by decide),
    List.filter_append, List.filter_cons_of_neg (by decide),
    List.filter_append, List.filter_cons_of_neg (by decide)]
  rw [filter_ne_dash_of_hex _ (toHexChars_all_hex 8 _),
    filter_ne_dash_of_hex _ (toHexChars_all_hex 4 _),
    filter_ne_dash_of_hex _ (toHexChars_all_hex 4 _),
    filter_ne_dash_of_hex _ (toHexChars_all_hex 4 _),
    filter_ne_dash_of_hex _ (toHexChars_all_hex 12 _)]
  rw [fromHexChars_append, fromHexChars_append, fromHexChars_append, fromHexChars_append]
  simp only [List.length_append, toHexChars_length, fromHex_toHex]
  norm_num at hn ⊢
  omega

theorem cdxSerialNumber_inj (r₁ r₂ : Nat)
    (h : uuid4OfRandom r₁ ≠ uuid4OfRandom r₂) :
    cdxSerialNumber r₁ ≠ cdxSerialNumber r₂ := by
  intro he
  apply h
  have h1 := decodeSerial_uuid (uuid4OfRandom r₁) (uuid4OfRandom_lt r₁)
  have h2 := decodeSerial_uuid (uuid4OfRandom r₂) (uuid4OfRandom_lt r₂)
  rw [← h1, ← h2]
  unfold cdxSerialNumber at he
  rw [he]

theorem length_filterMap_eq_length_filter {α β : Type} (f : α → Option β) (l : List α) :
    (l.filterMap f).length = (l.filter (fun a => (f a).isSome)).length := by
  induction l with
  | nil => rfl
  | cons a t ih =>
    rw [List.filterMap_cons, List.filter_cons]
    cases h : f a <;> simp [h, ih]

theorem processDist_isSome (env : ScanEnv) (d : PkgDist)
    (he : env.errorFor d.project_name = none) :
    ((processDist env d).1).isSome = resolvable env d := by
  rw [processDist, he, resolvable]
  dsimp only
  by_cases h1 : env.pathExists (d.location ++ "/" ++ replaceDashUnderscore d.project_name) = true <;>
    by_cases h2 : env.pathExists (d.location ++ "/" ++ lowerAscii d.project_name) = true <;>
      simp [h1, h2]

theorem processDist_size (env : ScanEnv) (d : PkgDist) (rec : PackageRecord)
    (h : (processDist env d).1 = some rec) :
    ∃ loc, rec.size_bytes = walkSize (env.fileSizes loc) := by
  cases he : env.errorFor d.project_name with
  | some msg =>
    rw [processDist_of_error env d msg he] at h
    cases h
  | none =>
    rw [processDist, he] at h
    dsimp only at h
    by_cases h1 : env.pathExists (d.location ++ "/" ++ replaceDashUnderscore d.project_name) = true
    · simp only [h1, if_true] at h
      refine ⟨d.location ++ "/" ++ replaceDashUnderscore d.project_name, ?_⟩
      rw [← Option.some_inj.mp h]
    · by_cases h2 : env.pathExists (d.location ++ "/" ++ lowerAscii d.project_name) = true
      · simp only [h1, h2, if_false, if_true, Bool.false_eq_true] at h
        refine ⟨d.location ++ "/" ++ lowerAscii d.project_name, ?_⟩
        rw [← Option.some_inj.mp h]
      · simp [h1, h2] at h

/-! ### Claim theorems -/

/-- Claim C1.  The claim states that the average-size computation in the
summary is guarded when the package count is 0, so that rendering any
format completes without a division error.  The code is NOT guarded: for
every format, a run with an empty record set ends in an uncaught
`ZeroDivisionError` at the summary's average-size line
(`viperview.py` line 127, `total_size/total_packages`).  The other half
of the claim does hold: the JSON `metadata.total_size_human` is the
well-defined string `"0 Bytes"`. -/
theorem c1_zero_packages_division_error (env : ScanEnv) (dists : List PkgDist)
    (fmt now utcnow : String) (r : Nat)
    (h : (get_package_sizes env dists).records = []) :
    (analyze_packages env dists fmt now utcnow r).raised =
      some "ZeroDivisionError: division by zero" ∧
    (analyze_packages env dists "json" now utcnow r).output =
      RenderOutput.json
        { metadata := { generated_at := now, total_packages := 0,
                        total_size_bytes := 0, total_size_human := "0 Bytes" },
          packages := [] } := by
  constructor
  · simp [analyze_packages, h]
  · simp [analyze_packages, h, sumSizes,
      show naturalsizeBinary 0 = "0 Bytes" from rfl]

/-- Witness for C1 at a concrete empty registry. -/
theorem c1_zero_packages_division_error_witness :
    (analyze_packages envAllGood [] "text" "T" "U" 0).raised =
      some "ZeroDivisionError: division by zero" ∧
    (analyze_packages envAllGood [] "json" "T" "U" 0).output =
      RenderOutput.json
        { metadata := { generated_at := "T", total_packages := 0,
                        total_size_bytes := 0, total_size_human := "0 Bytes" },
          packages := [] } :=
  c1_zero_packages_division_error envAllGood [] "text" "T" "U" 0 rfl

/-- Claim C2 counterexample.  The claim says the warning identifying the
offending package is emitted on the diagnostic/error stream.  With one
erroring package the warning line appears on STANDARD OUTPUT and the
error stream stays empty. -/
theorem c2_warning_stream_counterexample :
    (get_package_sizes envOneError [⟨"/sp", "bad", "1"⟩]).stdoutLines =
      ["[!] Error reading bad: boom"] ∧
    (get_package_sizes envOneError [⟨"/sp", "bad", "1"⟩]).stderrLines = [] := by
  constructor
  · rfl
  · rfl

/-- Claim C2 (amended): any error raised while resolving or walking one
package's directory is caught per-package, a warning identifying the
offending package name is emitted — on the STANDARD OUTPUT stream, not
the diagnostic/error stream — that package contributes no record, and
every package is processed independently, so no single failure aborts
the scan. -/
theorem c2_per_package_error_isolation (env : ScanEnv) (dists : List PkgDist)
    (d : PkgDist) (msg : String) (hd : d ∈ dists)
    (he : env.errorFor d.project_name = some msg) :
    ("[!] Error reading " ++ d.project_name ++ ": " ++ msg) ∈
      (get_package_sizes env dists).stdoutLines ∧
    (get_package_sizes env dists).stderrLines = [] ∧
    (processDist env d).1 = none ∧
    (get_package_sizes env dists).records =
      dists.filterMap (fun x => (processDist env x).1) := by
  refine ⟨scan_stdout_mem env dists d msg hd he, scan_stderr_nil env dists, ?_,
    scan_records_eq env dists⟩
  rw [processDist_of_error env d msg he]

/-- Witness for C2 (amended) at a concrete two-package registry. -/
theorem c2_per_package_error_isolation_witness :
    ("[!] Error reading bad: boom") ∈
      (get_package_sizes envOneError [⟨"/sp", "bad", "1"⟩, ⟨"/sp", "ok", "1"⟩]).stdoutLines ∧
    (get_package_sizes envOneError [⟨"/sp", "bad", "1"⟩, ⟨"/sp", "ok", "1"⟩]).stderrLines = [] ∧
    (processDist envOneError ⟨"/sp", "bad", "1"⟩).1 = none ∧
    (get_package_sizes envOneError [⟨"/sp", "bad", "1"⟩, ⟨"/sp", "ok", "1"⟩]).records =
      ([⟨"/sp", "bad", "1"⟩, ⟨"/sp", "ok", "1"⟩] : List PkgDist).filterMap
        (fun x => (processDist envOneError x).1) :=
  c2_per_package_error_isolation envOneError [⟨"/sp", "bad", "1"⟩, ⟨"/sp", "ok", "1"⟩]
    ⟨"/sp", "bad", "1"⟩ "boom" (by decide) rfl

/-- Claim C3 counterexample.  The claim says scanning 10 packages with
exactly 1 unresolvable yields 9 records AND one logged warning.  The
code skips an unresolvable package silently: 9 records, ZERO warnings
(no output on either stream). -/
theorem c3_silent_skip_counterexample :
    (get_package_sizes envMissingTen tenDists).records.length = 9 ∧
    (get_package_sizes envMissingTen tenDists).stdoutLines = [] ∧
    (get_package_sizes envMissingTen tenDists).stderrLines = [] := by
  refine ⟨?_, ?_, ?_⟩ <;> rfl

/-- Claim C3 (amended): a package whose resolved directory does not
exist contributes no record and raises no uncaught error, and it
produces NO logged warning (warnings are printed only when an exception
is raised); scanning 10 packages where exactly 1 is unresolvable yields
exactly 9 records and no warning. -/
theorem c3_unresolvable_silent_skip (env : ScanEnv) (dists : List PkgDist)
    (h : ∀ d ∈ dists, env.errorFor d.project_name = none) :
    (get_package_sizes env dists).records.length =
      (dists.filter (fun d => resolvable env d)).length ∧
    (get_package_sizes env dists).stdoutLines = [] ∧
    (get_package_sizes env dists).stderrLines = [] := by
  refine ⟨?_, scan_stdout_nil env dists h, scan_stderr_nil env dists⟩
  rw [scan_records_eq, length_filterMap_eq_length_filter]
  have hc : ∀ d ∈ dists, ((processDist env d).1).isSome = resolvable env d :=
    fun d hd => processDist_isSome env d (h d hd)
  rw [List.filter_congr hc]

/-- Witness for C3 (amended) at the concrete 10-package registry with
one unresolvable package. -/
theorem c3_unresolvable_silent_skip_witness :
    (get_package_sizes envMissingTen tenDists).records.length =
      (tenDists.filter (fun d => resolvable envMissingTen d)).length ∧
    (get_package_sizes envMissingTen tenDists).stdoutLines = [] ∧
    (get_package_sizes envMissingTen tenDists).stderrLines = [] :=
  c3_unresolvable_silent_skip envMissingTen tenDists (by decide)

/-- Claim C4: the install directory is resolved by first trying the
declared install root joined with the project name with hyphens replaced
by underscores; only if that path does not exist is the root joined with
the lowercase project name tried; if neither exists the package
contributes no record; the record's `location` is the path found to
exist (and its size is the walk of that same path). -/
theorem c4_resolution_order (env : ScanEnv) (d : PkgDist)
    (he : env.errorFor d.project_name = none) :
    (env.pathExists (d.location ++ "/" ++ replaceDashUnderscore d.project_name) = true →
      (processDist env d).1 = some
        { name := d.project_name, version := d.version,
          size_bytes := walkSize (env.fileSizes (d.location ++ "/" ++ replaceDashUnderscore d.project_name)),
          location := d.location ++ "/" ++ replaceDashUnderscore d.project_name }) ∧
    (env.pathExists (d.location ++ "/" ++ replaceDashUnderscore d.project_name) = false →
      env.pathExists (d.location ++ "/" ++ lowerAscii d.project_name) = true →
      (processDist env d).1 = some
        { name := d.project_name, version := d.version,
          size_bytes := walkSize (env.fileSizes (d.location ++ "/" ++ lowerAscii d.project_name)),
          location := d.location ++ "/" ++ lowerAscii d.project_name }) ∧
    (env.pathExists (d.location ++ "/" ++ replaceDashUnderscore d.project_name) = false →
      env.pathExists (d.location ++ "/" ++ lowerAscii d.project_name) = false →
      (processDist env d).1 = none) := by
  refine ⟨?_, ?_, ?_⟩
  · intro h1
    simp [processDist, he, h1]
  · intro h1 h2
    simp [processDist, he, h1, h2]
  · intro h1 h2
    simp [processDist, he, h1, h2]

/-- Witness for C4: with only the lowercase candidate existing, the
record's location is the lowercase path and its size the walk total. -/
theorem c4_resolution_order_witness :
    (processDist envLowerOnly ⟨"/sp", "ABC", "1"⟩).1 =
      some { name := "ABC", version := "1", size_bytes := 3, location := "/sp/abc" } :=
  (c4_resolution_order envLowerOnly ⟨"/sp", "ABC", "1"⟩ rfl).2.1 (by decide) (by decide)

set_option maxRecDepth 4000 in
/-- Claim C5 counterexample.  The claim says the output is identical for
any permutation of the input record order.  Python `sorted` is stable,
so two records whose names differ only by case keep their input order:
permuting the input changes the output. -/
theorem c5_stable_sort_tie_counterexample :
    ([⟨"a", "2.0", 0, "y"⟩, ⟨"A", "1.0", 0, "x"⟩] : List PackageRecord).Perm
      [⟨"A", "1.0", 0, "x"⟩, ⟨"a", "2.0", 0, "y"⟩] ∧
    format_text_output "T" [⟨"A", "1.0", 0, "x"⟩, ⟨"a", "2.0", 0, "y"⟩] ≠
      format_text_output "T" [⟨"a", "2.0", 0, "y"⟩, ⟨"A", "1.0", 0, "x"⟩] := by
  constructor
  · decide
  · decide

/-- Claim C5 (amended): the body lines of text-format output are the
records in stable-sorted order by case-folded name — sorted
case-insensitively ascending for every input — and the output is
identical for any permutation of the input record order PROVIDED no two
records share the same case-folded name (for inputs with case-folded
duplicates, stability makes the tie order follow the input order). -/
theorem c5_sorted_text_output :
    (∀ (now : String) (packages : List PackageRecord),
      format_text_output now packages =
        textHeader now ++ joinAll ((List.insertionSort nameKeyLE packages).map textLine) ∧
      (List.insertionSort nameKeyLE packages).Sorted nameKeyLE ∧
      (List.insertionSort nameKeyLE packages).Perm packages) ∧
    (∀ (now : String) (l₁ l₂ : List PackageRecord), l₁.Perm l₂ →
      (l₁.map fun p => lowerAscii p.name).Nodup →
      format_text_output now l₁ = format_text_output now l₂) := by
  constructor
  · intro now packages
    exact ⟨format_text_output_eq now packages,
      @List.sorted_insertionSort _ nameKeyLE _ nameKeyLE_isTotal nameKeyLE_isTrans packages,
      List.perm_insertionSort nameKeyLE packages⟩
  · intro now l₁ l₂ hp hnd
    have hs₁ := @List.sorted_insertionSort _ nameKeyLE _ nameKeyLE_isTotal nameKeyLE_isTrans l₁
    have hs₂ := @List.sorted_insertionSort _ nameKeyLE _ nameKeyLE_isTotal nameKeyLE_isTrans l₂
    have hperm : (List.insertionSort nameKeyLE l₁).Perm (List.insertionSort nameKeyLE l₂) :=
      ((List.perm_insertionSort nameKeyLE l₁).trans hp).trans
        (List.perm_insertionSort nameKeyLE l₂).symm
    have hnd' : ((List.insertionSort nameKeyLE l₁).map fun p => lowerAscii p.name).Nodup :=
      (((List.perm_insertionSort nameKeyLE l₁).map fun p => lowerAscii p.name).nodup_iff).mpr hnd
    have heq := sorted_perm_eq_of_nodup_keys hperm hs₁ hs₂ hnd'
    rw [format_text_output_eq, format_text_output_eq, heq]

/-- Witness for C5 (amended): two records with distinct case-folded
names give the same output in either input order. -/
theorem c5_sorted_text_output_witness :
    format_text_output "T" [⟨"beta", "1", 1, "x"⟩, ⟨"Alpha", "2", 2, "y"⟩] =
      format_text_output "T" [⟨"Alpha", "2", 2, "y"⟩, ⟨"beta", "1", 1, "x"⟩] :=
  c5_sorted_text_output.2 "T" _ _ (by decide) (by decide)

/-- Claim C6: the JSON `packages` array is the record list itself —
exact element count, field values and enumeration order preserved —
each serialized element carries exactly the four PackageRecord keys in
construction order, and parsing each element back reproduces the
original record (round-trip law). -/
theorem c6_json_round_trip :
    ∀ (env : ScanEnv) (dists : List PkgDist) (now utcnow : String) (r : Nat),
      ((analyze_packages env dists "json" now utcnow r).output =
        RenderOutput.json
          { metadata := { generated_at := now,
                          total_packages := (get_package_sizes env dists).records.length,
                          total_size_bytes := sumSizes (get_package_sizes env dists).records,
                          total_size_human :=
                            naturalsizeBinary (sumSizes (get_package_sizes env dists).records) },
            packages := (get_package_sizes env dists).records }) ∧
      (∀ pkgs : List PackageRecord,
        (pkgs.map recordFields).map parseRecordFields = pkgs.map some) ∧
      (∀ p : PackageRecord, (recordFields p).map Prod.fst =
        ["name", "version", "size_bytes", "location"]) := by
  intro env dists now utcnow r
  refine ⟨?_, ?_, ?_⟩
  · by_cases h : (get_package_sizes env dists).records.length = 0 <;>
      simp [analyze_packages, h]
  · intro pkgs
    induction pkgs with
    | nil => rfl
    | cons p t ih => simp [recordFields, parseRecordFields, ih]
  · intro p
    rfl

/-- Claim C7: the CycloneDX document has `bomFormat` "CycloneDX",
`specVersion` "1.4", `version` 1, one component per input record, and
each component is a "library" with `purl` `pkg:pypi/<name>@<version>`
and exactly the two properties `size` (the byte count as a string) and
`location`. -/
theorem c7_cyclonedx_document_shape :
    ∀ (r : Nat) (utcnow : String) (packages : List PackageRecord),
      (generate_cyclonedx_sbom r utcnow packages).bomFormat = "CycloneDX" ∧
      (generate_cyclonedx_sbom r utcnow packages).specVersion = "1.4" ∧
      (generate_cyclonedx_sbom r utcnow packages).version = 1 ∧
      (generate_cyclonedx_sbom r utcnow packages).components.length = packages.length ∧
      (generate_cyclonedx_sbom r utcnow packages).components =
        packages.map (fun pkg =>
          { type := "library", name := pkg.name, version := pkg.version,
            purl := "pkg:pypi/" ++ pkg.name ++ "@" ++ pkg.version,
            properties := [{ name := "size", value := toString pkg.size_bytes },
                           { name := "location", value := pkg.location }] }) := by
  intro r utcnow packages
  have hc : (generate_cyclonedx_sbom r utcnow packages).components =
      packages.map (fun pkg =>
        ({ type := "library", name := pkg.name, version := pkg.version,
           purl := "pkg:pypi/" ++ pkg.name ++ "@" ++ pkg.version,
           properties := [{ name := "size", value := toString pkg.size_bytes },
                          { name := "location", value := pkg.location }] } : CdxComponent)) := by
    rw [generate_cyclonedx_sbom]
    dsimp only
    simpa using foldl_append_singletons _ packages []
  exact ⟨rfl, rfl, rfl, by rw [hc, List.length_map], hc⟩

/-- Claim C8: the CycloneDX `serialNumber` is a syntactically valid
UUID-urn string; it is a function of the fresh random draw only — never
of the record set or timestamp — and two invocations whose random draws
yield different UUID values produce different serial numbers. -/
theorem c8_serial_number_urn_and_fresh :
    (∀ r : Nat, IsUuidUrn (cdxSerialNumber r)) ∧
    (∀ r₁ r₂ : Nat, uuid4OfRandom r₁ ≠ uuid4OfRandom r₂ →
      cdxSerialNumber r₁ ≠ cdxSerialNumber r₂) ∧
    (∀ (r : Nat) (ts₁ ts₂ : String) (pkgs₁ pkgs₂ : List PackageRecord),
      (generate_cyclonedx_sbom r ts₁ pkgs₁).serialNumber = cdxSerialNumber r ∧
      (generate_cyclonedx_sbom r ts₁ pkgs₁).serialNumber =
        (generate_cyclonedx_sbom r ts₂ pkgs₂).serialNumber) := by
  refine ⟨fun r => isUuidUrn_urn_append (uuid4OfRandom r), cdxSerialNumber_inj, ?_⟩
  intro r ts₁ ts₂ pkgs₁ pkgs₂
  exact ⟨rfl, rfl⟩

/-- Witness for C8: two concrete distinct random draws give distinct
serial numbers. -/
theorem c8_serial_number_witness : cdxSerialNumber 0 ≠ cdxSerialNumber 1 :=
  c8_serial_number_urn_and_fresh.2.1 0 1 (by decide)

/-- Claim C9: every record's `size_bytes` is non-negative whenever the
walked file sizes are (sizes are accumulated from zero over the walked
regular files), and the reported total is the exact integer sum of the
records' `size_bytes`. -/
theorem c9_sizes_sum_nonneg :
    ∀ (env : ScanEnv) (dists : List PkgDist),
      (∀ path : String, ∀ s ∈ env.fileSizes path, 0 ≤ s) →
      (∀ rec ∈ (get_package_sizes env dists).records, 0 ≤ rec.size_bytes) ∧
      sumSizes (get_package_sizes env dists).records =
        ((get_package_sizes env dists).records.map fun rec => rec.size_bytes).sum := by
  intro env dists h
  refine ⟨?_, sumSizes_eq_sum _⟩
  intro rec hrec
  rw [scan_records_eq] at hrec
  rcases List.mem_filterMap.mp hrec with ⟨d, _, hpd⟩
  rcases processDist_size env d rec hpd with ⟨loc, hsz⟩
  rw [hsz]
  exact walkSize_nonneg _ (h loc)

/-- Witness for C9 at a concrete one-package registry with file sizes
5 and 7. -/
theorem c9_sizes_sum_nonneg_witness :
    (∀ rec ∈ (get_package_sizes envAllGood [⟨"/sp", "p1", "1"⟩]).records,
      0 ≤ rec.size_bytes) ∧
    sumSizes (get_package_sizes envAllGood [⟨"/sp", "p1", "1"⟩]).records =
      ((get_package_sizes envAllGood [⟨"/sp", "p1", "1"⟩]).records.map
        fun rec => rec.size_bytes).sum :=
  c9_sizes_sum_nonneg envAllGood [⟨"/sp", "p1", "1"⟩]
    (fun _ => show ∀ s ∈ ([5, 7] : List Int), 0 ≤ s by decide)

/-- Claim C10: every output_format other than `json` and `cyclonedx` —
misspellings, the empty string, anything — falls through to the text
renderer; no error, no rejection. -/
theorem c10_unknown_format_text :
    ∀ (env : ScanEnv) (dists : List PkgDist) (fmt now utcnow : String) (r : Nat),
      fmt ≠ "json" → fmt ≠ "cyclonedx" →
      (analyze_packages env dists fmt now utcnow r).output =
        RenderOutput.text (format_text_output now (get_package_sizes env dists).records) := by
  intro env dists fmt now utcnow r h1 h2
  by_cases h : (get_package_sizes env dists).records.length = 0 <;>
    simp [analyze_packages, h, h1, h2]

/-- Witness for C10 at the unrecognized format string `xml`. -/
theorem c10_unknown_format_text_witness :
    (analyze_packages envAllGood [] "xml" "T" "U" 0).output =
      RenderOutput.text (format_text_output "T" (get_package_sizes envAllGood []).records) :=
  c10_unknown_format_text envAllGood [] "xml" "T" "U" 0 (by decide) (by decide)
